import Mathlib

/-!
Verification development for the chemins_noirs routing backend.

This file gives a shallow embedding, in Lean 4, of the pure core of the
Rust sources under backend/src (routing.rs, graph.rs, engine.rs, loops.rs,
lib.rs, bin/backend_partial.rs) together with theorems deciding a fixed
list of specification claims about them.

Modelling conventions:
- f64 values are modelled as real numbers where trigonometry is involved
  (geo primitives, edge lengths) and as rationals where the Rust code only
  performs field-free comparisons and arithmetic (the loop generator).
- HashMap and HashSet values are modelled as association lists and lists;
  an insert prepends, so a lookup that scans from the left sees the most
  recent binding, exactly like HashMap::insert followed by get.
- Fallible Rust functions returning Result are modelled with Except, and
  Option-returning functions with Option.
- Filesystem, PBF decoding, the elevation oracle, GPX encoding and the
  A-star engine calls made by the loop generator are collaborators: they
  are passed to the embedded functions as explicit arguments, so each
  embedded function is the pure control flow of its Rust original.
-/

namespace CheminsNoirs

/-- Coordinate from models.rs: WGS84 latitude and longitude in degrees. -/
structure Coordinate where
  lat : ℝ
  lon : ℝ

/-- Coordinate.interpolate from models.rs. -/
noncomputable def Coordinate.interpolate (a b : Coordinate) (t : ℝ) : Coordinate :=
  ⟨a.lat + (b.lat - a.lat) * t, a.lon + (b.lon - a.lon) * t⟩

/-- SurfaceType from models.rs. -/
inductive SurfaceType where
  | paved
  | trail
  | dirt
deriving DecidableEq, Repr

/-- RouteRequest from models.rs. -/
structure RouteRequest where
  start : Coordinate
  stop : Coordinate
  w_pop : ℝ
  w_paved : ℝ

/-- Degrees-to-radians conversion, f64::to_radians. -/
noncomputable def toRadians (x : ℝ) : ℝ := x * (Real.pi / 180)

/-- EARTH_RADIUS_KM from routing.rs. -/
def earthRadiusKm : ℝ := 6371

/-- haversine_km from routing.rs: great-circle distance on a sphere of
radius 6371 km, computed by the haversine formula. -/
noncomputable def haversineKm (a b : Coordinate) : ℝ :=
  let lat1 := toRadians a.lat
  let lat2 := toRadians b.lat
  let dlat := toRadians (b.lat - a.lat)
  let dlon := toRadians (b.lon - a.lon)
  let sin_dlat := Real.sin (dlat / 2)
  let sin_dlon := Real.sin (dlon / 2)
  let h := sin_dlat * sin_dlat + Real.cos lat1 * Real.cos lat2 * sin_dlon * sin_dlon
  2 * earthRadiusKm * Real.arcsin (Real.sqrt h)

/-- approximate_distance_km from routing.rs: sum of haversine distances of
consecutive pairs of the path. -/
noncomputable def approximateDistanceKm : List Coordinate → ℝ
  | [] => 0
  | [_] => 0
  | a :: b :: rest => haversineKm a b + approximateDistanceKm (b :: rest)

/-- perpendicular_unit from routing.rs. -/
noncomputable def perpendicularUnit (start stop : Coordinate) : Coordinate :=
  let dx := stop.lon - start.lon
  let dy := stop.lat - start.lat
  let len := max (Real.sqrt (dx * dx + dy * dy)) (2 ^ (52 : ℕ))⁻¹
  ⟨dx / len, -dy / len⟩

/-- generate_route from routing.rs: the synthetic fallback path of 33
interpolated points with a sinusoidal wiggle scaled by the clamped sum of
the weights. -/
noncomputable def generateRoute (req : RouteRequest) : List Coordinate :=
  let avoidance := min (max (req.w_pop + req.w_paved) 0) 10
  let perp := perpendicularUnit req.start req.stop
  (List.range 33).map (fun (i : ℕ) =>
    let t := (i : ℝ) / 32
    let p := req.start.interpolate req.stop t
    let wiggle := Real.sin ((i : ℝ) * 0.45) * 0.01 * avoidance
    ⟨p.lat + perp.lat * wiggle, p.lon + perp.lon * wiggle⟩)

/-- NodeRecord from graph.rs. -/
structure NodeRecord where
  id : ℕ
  lat : ℝ
  lon : ℝ
  elevation : Option ℝ
  population_density : ℝ

/-- EdgeRecord from graph.rs; src and dst stand for the Rust fields named
from and to (from is a Lean keyword). -/
structure EdgeRecord where
  src : ℕ
  dst : ℕ
  surface : SurfaceType
  length_m : ℝ
  waypoints : List Coordinate

/-- GraphFile from graph.rs. -/
structure GraphFile where
  nodes : List NodeRecord
  edges : List EdgeRecord

/-- GraphBuildError from graph.rs (the osmpbf and serde variants carry
only a message here). -/
inductive GraphBuildError where
  | io (msg : String)
  | osm (msg : String)
  | parse (msg : String)
  | emptyGraph
deriving DecidableEq, Repr

/-- OsmWay from graph.rs: way id, ordered node refs, tag pairs. -/
def OsmWay : Type := ℤ × List ℤ × List (String × String)

/-- FilteredPbfData from graph.rs; the HashMap of nodes is modelled as an
association list from osm id to (lat, lon, elevation). -/
structure FilteredPbfData where
  nodes : List (ℤ × ℝ × ℝ × Option ℝ)
  ways : List OsmWay

/-- NodeCollectionState from graph.rs. -/
structure NodeCollectionState where
  nodes : List NodeRecord
  coords : List Coordinate
  osm_to_graph_id : List (ℤ × ℕ)

/-- NodeCollectionState::with_node from graph.rs: appends a node with the
dense 1-based graph id nodes.len() + 1 and records the osm-to-graph
mapping (a HashMap insert, modelled by prepending). -/
def NodeCollectionState.withNode (s : NodeCollectionState) (osmId : ℤ)
    (lat lon : ℝ) (elevation : Option ℝ) : NodeCollectionState :=
  let graphId := s.nodes.length + 1
  { nodes := s.nodes ++ [⟨graphId, lat, lon, elevation, 0⟩]
    coords := s.coords ++ [⟨lat, lon⟩]
    osm_to_graph_id := (osmId, graphId) :: s.osm_to_graph_id }

/-- The pure way predicate of the single-pass filter_pbf_to_memory from
graph.rs: a way is kept iff it carries a highway tag with any value. -/
def filterKeepsWay (tags : List (String × String)) : Bool :=
  tags.any (fun t => t.1 == "highway")

/-- is_supported_highway from graph.rs. -/
def isSupportedHighway (v : String) : Bool :=
  match v with
  | "path" | "footway" | "living_street" | "secondary" | "tertiary"
  | "residential" | "track" | "service" | "unclassified" | "primary" => true
  | _ => false

/-- has_supported_highway from graph.rs: first highway tag decides. -/
def hasSupportedHighway (tags : List (String × String)) : Bool :=
  match tags.find? (fun t => t.1 == "highway") with
  | some t => isSupportedHighway t.2
  | none => false

/-- Lookup in the HashMap collected from a tag list; a later duplicate key
overwrites an earlier one, hence the scan of the reversed list. -/
def tagsMapGet (tags : List (String × String)) (k : String) : Option String :=
  (tags.reverse.find? (fun t => t.1 == k)).map (·.2)

/-- infer_surface from graph.rs. -/
def inferSurface (tags : List (String × String)) : SurfaceType :=
  match tagsMapGet tags "surface" with
  | some s =>
    match s with
    | "gravel" | "fine_gravel" | "compacted" | "unpaved" => .trail
    | "dirt" | "earth" | "ground" | "grass" => .dirt
    | _ => .paved
  | none =>
    match tagsMapGet tags "highway" with
    | some h =>
      match h with
      | "path" | "footway" | "track" => .trail
      | "service" | "residential" | "primary" | "secondary" | "tertiary" => .paved
      | _ => .trail
    | none => .trail

/-- Number of occurrences of a node across all way node-ref lists, matching
the count map of identify_intersection_nodes from graph.rs. -/
def nodeOccurrenceCount (ways : List OsmWay) (n : ℤ) : ℕ :=
  (ways.map (fun w => w.2.1.count n)).sum

/-- Membership in the endpoint set of identify_intersection_nodes. -/
def isWayEndpoint (ways : List OsmWay) (n : ℤ) : Bool :=
  ways.any (fun w => w.2.1.head? == some n || w.2.1.getLast? == some n)

/-- identify_intersection_nodes from graph.rs, as a membership predicate:
a node is an intersection iff it occurs more than once across the ways or
is the first or last node of some way. -/
def isIntersectionNode (ways : List OsmWay) (n : ℤ) : Bool :=
  decide (1 < nodeOccurrenceCount ways n) || isWayEndpoint ways n

/-- The running length accumulation of build_edge_with_waypoints from
graph.rs: walks the waypoints from the from-coordinate adding haversine
segment lengths in metres, then closes with the to-coordinate. -/
noncomputable def polylineLengthM (fromCoord toCoord : Coordinate)
    (ws : List Coordinate) : ℝ :=
  let acc := ws.foldl
    (fun (acc : ℝ × Coordinate) w => (acc.1 + haversineKm acc.2 w * 1000, w))
    (0, fromCoord)
  acc.1 + haversineKm acc.2 toCoord * 1000

/-- build_edge_with_waypoints from graph.rs, verbatim: note that it indexes
the coords slice directly with the graph ids found in osm_to_graph (the
bounds test coords.len() is greater-than the id included), unlike
create_edge_record in the same file which subtracts one first. -/
noncomputable def buildEdgeWithWaypoints (nodeRefs : List ℤ)
    (surface : SurfaceType) (osmToGraph : List (ℤ × ℕ))
    (coords : List Coordinate) : Option EdgeRecord :=
  if nodeRefs.length < 2 then none
  else
    let firstOsm := nodeRefs.getD 0 0
    let lastOsm := nodeRefs.getD (nodeRefs.length - 1) 0
    match osmToGraph.lookup firstOsm, osmToGraph.lookup lastOsm with
    | some fromId, some toId =>
      if coords.length ≤ fromId ∨ coords.length ≤ toId then none
      else
        let fromCoord := coords.getD fromId ⟨0, 0⟩
        let toCoord := coords.getD toId ⟨0, 0⟩
        let ws := ((nodeRefs.drop 1).take (nodeRefs.length - 2)).filterMap
          (fun osmId => (osmToGraph.lookup osmId).bind
            (fun gid =>
              if gid < coords.length then some (coords.getD gid ⟨0, 0⟩) else none))
        some ⟨fromId, toId, surface, polylineLengthM fromCoord toCoord ws, ws⟩
    | _, _ => none

/-- The per-way segment walk of build_from_filtered_data from graph.rs:
cuts the node-ref list at every interior intersection position, emitting
the inclusive segment each time, and finally the leftover segment when the
last cut was before the final position. The loop over positions is
modelled by structural recursion over the list of positions. -/
def waySegmentsGo (refs : List ℤ) (isInter : ℤ → Bool) :
    List ℕ → ℕ → List (List ℤ)
  | [], segStart =>
    if segStart < refs.length - 1 then [refs.drop segStart] else []
  | i :: rest, segStart =>
    if segStart < i ∧ isInter (refs.getD i 0) then
      ((refs.drop segStart).take (i - segStart + 1)) ::
        waySegmentsGo refs isInter rest i
    else
      waySegmentsGo refs isInter rest segStart

/-- Segment list for a whole way: the walk enumerates every position of
the node-ref list starting from segment start 0. -/
def waySegments (refs : List ℤ) (isInter : ℤ → Bool) : List (List ℤ) :=
  waySegmentsGo refs isInter (List.range refs.length) 0

/-- The node-collection fold of build_from_filtered_data: nodes sorted by
osm id, each added once through with_node. -/
def collectFilteredNodes (entries : List (ℤ × ℝ × ℝ × Option ℝ)) :
    NodeCollectionState :=
  entries.foldl
    (fun st e =>
      if (st.osm_to_graph_id.lookup e.1).isSome then st
      else st.withNode e.1 e.2.1 e.2.2.1 e.2.2.2)
    ⟨[], [], []⟩

/-- build_from_filtered_data from graph.rs: sorts the filtered nodes by
osm id, assigns dense 1-based graph ids, finds intersection nodes, and
splits every way with at least two refs into edges between consecutive
intersections. It applies no highway admission filter. -/
noncomputable def buildFromFilteredData (data : FilteredPbfData) :
    Except GraphBuildError GraphFile :=
  let sorted := data.nodes.insertionSort (fun a b => a.1 ≤ b.1)
  let st := collectFilteredNodes sorted
  if st.nodes.isEmpty then .error .emptyGraph
  else
    let inter := isIntersectionNode data.ways
    let edges := data.ways.foldl
      (fun acc w =>
        if w.2.1.length < 2 then acc
        else
          let surface := inferSurface w.2.2
          acc ++ (waySegments w.2.1 inter).filterMap
            (fun seg => buildEdgeWithWaypoints seg surface st.osm_to_graph_id st.coords))
      []
    .ok ⟨st.nodes, edges⟩

/-- Concrete filtered PBF data for the off-by-one finding: one admissible
way of two nodes (osm ids 10 and 20, both at latitude 0 longitude 0) and a
third free-standing bbox node (osm id 30, at latitude 0 longitude 180). -/
noncomputable def offByOneData : FilteredPbfData :=
  { nodes := [(10, 0, 0, none), (20, 0, 0, none), (30, 0, 180, none)]
    ways := [(1, [10, 20], [("highway", "path")])] }

/-- Concrete filtered PBF data with a motorway way: two nodes on the way
plus a third free-standing node inside the bbox. -/
noncomputable def motorwayData : FilteredPbfData :=
  { nodes := [(10, 0, 0, none), (20, 0, 0, none), (30, 0, 180, none)]
    ways := [(1, [10, 20], [("highway", "motorway")])] }

/-- EngineError from engine.rs. -/
inductive EngineError where
  | io (msg : String)
  | parse (msg : String)
  | emptyGraph
  | missingNode (id : ℕ)
deriving DecidableEq, Repr

/-- NodeData from engine.rs. -/
structure NodeData where
  coord : Coordinate
  population_density : ℝ

/-- EdgeData from engine.rs. -/
structure EdgeData where
  length_km : ℝ
  surface : SurfaceType
  mean_population_density : ℝ
  waypoints : List Coordinate

/-- WeightConfig from engine.rs. -/
structure WeightConfig where
  population : ℝ
  paved : ℝ

/-- RouteEngine from engine.rs: the petgraph UnGraph is modelled as the
list of its edges (endpoint indices in insertion orientation plus
payload) together with the node payload list; the kd-tree spatial index
is a derived view of the node list and is queried directly by
closestNode below. -/
structure RouteEngine where
  graph : List (ℕ × ℕ × EdgeData)
  nodes : List NodeData

/-- Default node payload used for the total list indexings below; the Rust
code only indexes in bounds, so the default is never observed. -/
def defaultNodeData : NodeData := ⟨⟨0, 0⟩, 0⟩

/-- petgraph UnGraph::update_edge: if an edge between the two endpoints
already exists (in either orientation) its payload is replaced, keeping
the stored orientation; otherwise the edge is appended. -/
def updateEdge : List (ℕ × ℕ × EdgeData) → ℕ → ℕ → EdgeData → List (ℕ × ℕ × EdgeData)
  | [], a, b, d => [(a, b, d)]
  | e :: rest, a, b, d =>
    if (e.1 = a ∧ e.2.1 = b) ∨ (e.1 = b ∧ e.2.1 = a) then (e.1, e.2.1, d) :: rest
    else e :: updateEdge rest a b d

/-- The id_to_index HashMap of RouteEngine::from_graph_file: nodes are
inserted in order, a later duplicate id overwriting an earlier one, which
the reversal makes visible to the first-match lookup. -/
def idToIndex (nodes : List NodeRecord) : List (ℕ × ℕ) :=
  (nodes.enum.map (fun p => (p.2.id, p.1))).reverse

/-- The node payload list built by RouteEngine::from_graph_file. -/
def engineNodes (g : GraphFile) : List NodeData :=
  g.nodes.map (fun n => NodeData.mk ⟨n.lat, n.lon⟩ n.population_density)

/-- The edge payload from_graph_file derives from an edge record once the
endpoint ids are resolved to the node indices src and dst: length in km,
surface, mean of the endpoint population densities, waypoints. -/
noncomputable def deriveEdgeData (g : GraphFile) (src dst : ℕ) (e : EdgeRecord) :
    EdgeData :=
  ⟨e.length_m / 1000, e.surface,
    (((engineNodes g).getD src defaultNodeData).population_density +
      ((engineNodes g).getD dst defaultNodeData).population_density) / 2,
    e.waypoints⟩

/-- One iteration of the edge loop of from_graph_file: resolve both
endpoint ids through the id map (a missing id aborts the construction,
the Rust ok_or question-mark) and update_edge with the derived payload. -/
noncomputable def edgeStep (g : GraphFile) (acc : List (ℕ × ℕ × EdgeData))
    (e : EdgeRecord) : Except EngineError (List (ℕ × ℕ × EdgeData)) :=
  match (idToIndex g.nodes).lookup e.src with
  | none => .error (.missingNode e.src)
  | some src =>
    match (idToIndex g.nodes).lookup e.dst with
    | none => .error (.missingNode e.dst)
    | some dst => .ok (updateEdge acc src dst (deriveEdgeData g src dst e))

/-- RouteEngine::from_graph_file from engine.rs: empty-graph check, node
payload construction, and an update_edge per edge record after resolving
both endpoint ids (missing ids are fatal). -/
noncomputable def fromGraphFile (g : GraphFile) : Except EngineError RouteEngine :=
  if g.nodes.isEmpty then .error .emptyGraph
  else
    (g.edges.foldlM (edgeStep g) []).map
      (fun es => RouteEngine.mk es (engineNodes g))

/-- Unordered equality of two endpoint pairs. -/
def pairEq (p q : ℕ × ℕ) : Prop :=
  (p.1 = q.1 ∧ p.2 = q.2) ∨ (p.1 = q.2 ∧ p.2 = q.1)

/-- Two stored edges join the same unordered node pair. -/
def samePair (e₁ e₂ : ℕ × ℕ × EdgeData) : Prop :=
  pairEq (e₁.1, e₁.2.1) (e₂.1, e₂.2.1)

/-- Decision procedure for whether an edge record of the graph file
resolves, under the id map of from_graph_file, to the unordered index
pair (x, y). -/
def matchesPair (g : GraphFile) (x y : ℕ) (e : EdgeRecord) : Bool :=
  ((idToIndex g.nodes).lookup e.src == some x &&
      (idToIndex g.nodes).lookup e.dst == some y) ||
    ((idToIndex g.nodes).lookup e.src == some y &&
      (idToIndex g.nodes).lookup e.dst == some x)

/-- Invariant of the edge fold of from_graph_file: the accumulated edge
list has no duplicate unordered pairs, and each member carries the payload
derived from the last already-handled record resolving to its pair. -/
def EngineFoldInv (g : GraphFile) (handled : List EdgeRecord)
    (acc : List (ℕ × ℕ × EdgeData)) : Prop :=
  acc.Pairwise (fun e₁ e₂ => ¬ samePair e₁ e₂) ∧
  ∀ x y d, (x, y, d) ∈ acc →
    ∃ rec, (handled.reverse).find? (matchesPair g x y) = some rec ∧
      (d = deriveEdgeData g x y rec ∨ d = deriveEdgeData g y x rec)

/-- Concrete graph file with two parallel edge records between node ids 1
and 2, the second in reversed orientation with different payload data. -/
noncomputable def parallelEdgesFile : GraphFile :=
  ⟨[⟨1, 0, 0, none, 2⟩, ⟨2, 0, 0, none, 4⟩],
   [⟨1, 2, .paved, 1000, []⟩, ⟨2, 1, .trail, 3000, []⟩]⟩

/-- The payload the engine keeps for the single surviving edge of
parallelEdgesFile: the one derived from the second (last) record. -/
noncomputable def parallelEdgesKeptData : EdgeData :=
  deriveEdgeData parallelEdgesFile 1 0 ⟨2, 1, .trail, 3000, []⟩

/-- The engine obtained from parallelEdgesFile. -/
noncomputable def parallelEdgesEngine : RouteEngine :=
  ⟨[(0, 1, parallelEdgesKeptData)], engineNodes parallelEdgesFile⟩

/-- Squared Euclidean distance in (lon, lat) degree space, the metric of
the kd-tree spatial index in engine.rs. -/
def squaredEuclideanDeg (n : NodeData) (target : Coordinate) : ℝ :=
  (n.coord.lon - target.lon) * (n.coord.lon - target.lon) +
    (n.coord.lat - target.lat) * (n.coord.lat - target.lat)

/-- The scan of the exact nearest-neighbour query answered by the
kd-tree: keep the first index attaining the minimal squared distance. -/
noncomputable def nearestGo (target : Coordinate) :
    List NodeData → ℕ → Option (ℝ × ℕ) → Option (ℝ × ℕ)
  | [], _, best => best
  | n :: rest, i, best =>
    match best with
    | none => nearestGo target rest (i + 1) (some (squaredEuclideanDeg n target, i))
    | some b =>
      if squaredEuclideanDeg n target < b.1 then
        nearestGo target rest (i + 1) (some (squaredEuclideanDeg n target, i))
      else nearestGo target rest (i + 1) (some b)

/-- The exact nearest-neighbour query answered by the kd-tree: the index
minimising squared Euclidean distance, together with that distance (the
first minimum wins when several nodes are equidistant). -/
noncomputable def nearestNode (nodes : List NodeData) (target : Coordinate) :
    Option (ℝ × ℕ) :=
  nearestGo target nodes 0 none

/-- RouteEngine::closest_node from engine.rs: nearest node accepted only
when sqrt of the squared degree distance times 111 km per degree is at
most the 20 km cutoff. -/
noncomputable def closestNode (eng : RouteEngine) (target : Coordinate) : Option ℕ :=
  match nearestNode eng.nodes target with
  | none => none
  | some (distSq, idx) => if Real.sqrt distSq * 111 ≤ 20 then some idx else none

/-- The paved-surface penalty of RouteEngine::edge_cost. -/
def pavedPenalty : SurfaceType → ℝ
  | .paved => 1
  | .trail => 0.2
  | .dirt => 0

/-- RouteEngine::edge_cost from engine.rs. -/
noncomputable def RouteEngine.edgeCost (edge : EdgeData) (w : WeightConfig) : ℝ :=
  edge.length_km *
    (1 + w.population * edge.mean_population_density + w.paved * pavedPenalty edge.surface)

/-- The edge_cost closure of find_path_with_excluded_edges from engine.rs:
an edge excluded in either orientation has its cost multiplied by 10
unless one of its endpoints is the snapped start node of the query. -/
noncomputable def excludedEdgeCost (excluded : List (ℕ × ℕ)) (startIdx : ℕ)
    (w : WeightConfig) (src dst : ℕ) (edge : EdgeData) : ℝ :=
  let baseCost := RouteEngine.edgeCost edge w
  let isExcluded := excluded.contains (src, dst) || excluded.contains (dst, src)
  let isFinalReturn := dst == startIdx || src == startIdx
  if isExcluded && !isFinalReturn then baseCost * 10 else baseCost

/-- The heuristic closure of find_path_with_excluded_edges: zero at the
snapped goal node, otherwise the haversine distance from the node
coordinate to the requested end coordinate. -/
noncomputable def engineHeuristic (eng : RouteEngine) (stopIdx : ℕ)
    (reqStop : Coordinate) (idx : ℕ) : ℝ :=
  if idx = stopIdx then 0
  else haversineKm (eng.nodes.getD idx defaultNodeData).coord reqStop

/-- petgraph edges(a) on an undirected graph: every stored edge incident
to a, re-oriented so that the reference source is a. -/
def incidentEdges (graph : List (ℕ × ℕ × EdgeData)) (a : ℕ) :
    List (ℕ × ℕ × EdgeData) :=
  graph.filterMap (fun e =>
    if e.1 = a then some (a, e.2.1, e.2.2)
    else if e.2.1 = a then some (a, e.1, e.2.2) else none)

/-- State of the petgraph astar loop: the visit_next binary heap (as the
list of its entries), the g-score map, the visited estimate map and the
predecessor map (HashMaps as prepend-insert association lists). -/
structure AstarState where
  visitNext : List (ℝ × ℕ)
  scores : List (ℕ × ℝ)
  estimateScores : List (ℕ × ℝ)
  pred : List (ℕ × ℕ)

/-- Minimum extraction from the heap entry list: returns the entry with
the least score (first occurrence on ties, a deterministic stand-in for
the unspecified tie order of BinaryHeap) and the remaining entries. -/
noncomputable def popMinGo (best : ℝ × ℕ) (acc : List (ℝ × ℕ)) :
    List (ℝ × ℕ) → (ℝ × ℕ) × List (ℝ × ℕ)
  | [] => (best, acc.reverse)
  | x :: xs =>
    if x.1 < best.1 then popMinGo x (best :: acc) xs else popMinGo best (x :: acc) xs

/-- BinaryHeap::pop of the MinScored heap. -/
noncomputable def popMin : List (ℝ × ℕ) → Option ((ℝ × ℕ) × List (ℝ × ℕ))
  | [] => none
  | x :: xs => some (popMinGo x [] xs)

/-- PathTracker::reconstruct_path_to from petgraph astar: follows the
predecessor map from the goal back to the start (the map length bounds the
walk, which in the reachable states is acyclic). -/
def reconstructGo (pred : List (ℕ × ℕ)) : ℕ → ℕ → List ℕ → List ℕ
  | 0, current, acc => current :: acc
  | fuel + 1, current, acc =>
    match pred.lookup current with
    | some p => reconstructGo pred fuel p (current :: acc)
    | none => current :: acc

/-- Path from start to goal recovered from the predecessor map. -/
def reconstructPathTo (pred : List (ℕ × ℕ)) (goal : ℕ) : List ℕ :=
  reconstructGo pred (pred.length + 1) goal []

/-- One relaxation of petgraph astar: skip the neighbour when an equal or
better g-score is recorded, otherwise record the improved score, the
predecessor, and push the node with its estimate onto the heap. -/
noncomputable def relaxNeighbor (h : ℕ → ℝ) (cost : ℕ → ℕ → EdgeData → ℝ)
    (nodeScore : ℝ) (st : AstarState) (e : ℕ × ℕ × EdgeData) : AstarState :=
  let next := e.2.1
  let nextScore := nodeScore + cost e.1 e.2.1 e.2.2
  let push : AstarState :=
    { st with
      scores := (next, nextScore) :: st.scores
      pred := (next, e.1) :: st.pred
      visitNext := st.visitNext ++ [(nextScore + h next, next)] }
  match st.scores.lookup next with
  | some old => if old ≤ nextScore then st else push
  | none => push

/-- The while-let loop of petgraph astar, with explicit fuel standing for
the termination measure of the Rust loop: pop the least estimate, return
on the goal test, skip nodes already visited with an estimate at most the
popped one, otherwise relax every incident edge. -/
noncomputable def astarLoop (graph : List (ℕ × ℕ × EdgeData)) (isGoal : ℕ → Bool)
    (cost : ℕ → ℕ → EdgeData → ℝ) (h : ℕ → ℝ) :
    ℕ → AstarState → Option (ℝ × List ℕ)
  | 0, _ => none
  | fuel + 1, st =>
    match popMin st.visitNext with
    | none => none
    | some ((estimate, node), rest) =>
      if isGoal node then
        some ((st.scores.lookup node).getD 0, reconstructPathTo st.pred node)
      else
        let continueWith : AstarState → Option (ℝ × List ℕ) := fun st1 =>
          let nodeScore := (st1.scores.lookup node).getD 0
          astarLoop graph isGoal cost h fuel
            ((incidentEdges graph node).foldl (relaxNeighbor h cost nodeScore) st1)
        match st.estimateScores.lookup node with
        | some prev =>
          if prev ≤ estimate then
            astarLoop graph isGoal cost h fuel { st with visitNext := rest }
          else
            continueWith
              { st with
                visitNext := rest
                estimateScores := (node, estimate) :: st.estimateScores }
        | none =>
          continueWith
            { st with
              visitNext := rest
              estimateScores := (node, estimate) :: st.estimateScores }

/-- petgraph astar entry point: seed the score map with the start at 0 and
the heap with the start estimate. -/
noncomputable def astar (fuel : ℕ) (graph : List (ℕ × ℕ × EdgeData)) (start : ℕ)
    (isGoal : ℕ → Bool) (cost : ℕ → ℕ → EdgeData → ℝ) (h : ℕ → ℝ) :
    Option (ℝ × List ℕ) :=
  astarLoop graph isGoal cost h fuel
    { visitNext := [(h start, start)], scores := [(start, 0)],
      estimateScores := [], pred := [] }

/-- The A-star call of find_path_with_excluded_edges: snap both request
endpoints, then search with the weighted, exclusion-penalised edge cost
and the haversine heuristic, returning the node route and its cost. -/
noncomputable def astarNodeRoute (eng : RouteEngine) (req : RouteRequest)
    (excluded : List (ℕ × ℕ)) (fuel : ℕ) : Option (ℝ × List ℕ) := do
  let start ← closestNode eng req.start
  let stop ← closestNode eng req.stop
  let w : WeightConfig := ⟨req.w_pop, req.w_paved⟩
  astar fuel eng.graph start (fun n => n == stop)
    (fun src dst ed => excludedEdgeCost excluded start w src dst ed)
    (engineHeuristic eng stop req.stop)

/-- graph.find_edge inside expand_path_with_waypoints: first stored edge
joining the two indices in either orientation. -/
def findEdgeData (graph : List (ℕ × ℕ × EdgeData)) (a b : ℕ) : Option EdgeData :=
  (graph.find? (fun e =>
    decide ((e.1 = a ∧ e.2.1 = b) ∨ (e.1 = b ∧ e.2.1 = a)))).map (·.2.2)

/-- The window walk of expand_path_with_waypoints from engine.rs. -/
def expandGo (graph : List (ℕ × ℕ × EdgeData)) (nodes : List NodeData) :
    ℕ → List ℕ → List Coordinate
  | _, [] => []
  | prev, i :: rest =>
    ((findEdgeData graph prev i).elim [] (·.waypoints)) ++
      ((nodes.getD i defaultNodeData).coord :: expandGo graph nodes i rest)

/-- expand_path_with_waypoints from engine.rs: the first node coordinate,
then per route window the edge waypoints followed by the window target
coordinate. -/
def expandPathWithWaypoints (route : List ℕ) (graph : List (ℕ × ℕ × EdgeData))
    (nodes : List NodeData) : List Coordinate :=
  match route with
  | [] => []
  | [i] => [(nodes.getD i defaultNodeData).coord]
  | i :: rest => (nodes.getD i defaultNodeData).coord :: expandGo graph nodes i rest

/-- find_path_with_excluded_edges from engine.rs: the astar node route
expanded with the stored edge waypoints. -/
noncomputable def findPathWithExcludedEdges (eng : RouteEngine) (req : RouteRequest)
    (excluded : List (ℕ × ℕ)) (fuel : ℕ) : Option (List Coordinate) :=
  (astarNodeRoute eng req excluded fuel).map
    (fun r => expandPathWithWaypoints r.2 eng.graph eng.nodes)

/-- RouteEngine::find_path from engine.rs: the excluded-edges variant with
an empty exclusion set. -/
noncomputable def findPath (eng : RouteEngine) (req : RouteRequest) (fuel : ℕ) :
    Option (List Coordinate) :=
  findPathWithExcludedEdges eng req [] fuel

/-- RouteBounds from shared/src/lib.rs. -/
structure RouteBounds where
  min_lat : ℝ
  max_lat : ℝ
  min_lon : ℝ
  max_lon : ℝ

/-- RouteMetadata from shared/src/lib.rs; stop stands for the field named
end (a Lean keyword). -/
structure RouteMetadata where
  point_count : ℕ
  bounds : RouteBounds
  start : Coordinate
  stop : Coordinate

/-- The largest finite f64 value, used as the fold seed of build_metadata
and as the missing-profile sort key of the loop generator. -/
def f64Max : ℝ := 2 ^ 1024 - 2 ^ 971

/-- build_metadata from lib.rs: bounds fold seeded with the f64 extremes,
plus first and last path point (origin when the path is empty). -/
noncomputable def buildMetadata (path : List Coordinate) : RouteMetadata :=
  let b := path.foldl
    (fun (acc : ℝ × ℝ × ℝ × ℝ) c =>
      (min acc.1 c.lat, max acc.2.1 c.lat, min acc.2.2.1 c.lon, max acc.2.2.2 c.lon))
    (f64Max, -f64Max, f64Max, -f64Max)
  ⟨path.length, ⟨b.1, b.2.1, b.2.2.1, b.2.2.2⟩,
    path.head?.getD ⟨0, 0⟩, path.getLast?.getD ⟨0, 0⟩⟩

/-!
Loop generator (loops.rs). The f64 quantities the generator itself
compares and stores (distances, tolerances, ascents, bearings) are
modelled as rationals; its collaborators carrying transcendental
arithmetic are explicit function arguments:
- buildLoop ring step stands for destination_point on the ring bearing
  followed by build_loop_path (the two engine A-star calls and the merge);
- distKm stands for approximate_distance_km;
- elevOracle stands for create_elevation_profile;
- gpxEncode stands for encode_route_as_gpx;
- bearingDeg ring step stands for normalize_bearing applied to the ring
  bearing in degrees.
-/

/-- ElevationProfile from shared/src/lib.rs, with rational values. -/
structure ElevationProfile where
  elevations : List (Option ℚ)
  min_elevation : Option ℚ
  max_elevation : Option ℚ
  total_ascent : ℚ
  total_descent : ℚ
deriving DecidableEq

/-- The RouteResponse a loop candidate carries (terrain, always None in
loops.rs, is omitted). -/
structure CandidateRoute where
  path : List Coordinate
  distance_km : ℚ
  gpx_base64 : String
  metadata : Option RouteMetadata
  elevation_profile : Option ElevationProfile

/-- LoopRouteRequest from shared/src/lib.rs. -/
structure LoopRouteRequest where
  start : Coordinate
  target_distance_km : ℚ
  distance_tolerance_km : ℚ
  candidate_count : ℕ
  w_pop : ℚ
  w_paved : ℚ
  max_total_ascent : Option ℚ
  min_total_ascent : Option ℚ

/-- LoopCandidate from shared/src/lib.rs. -/
structure LoopCandidate where
  route : CandidateRoute
  distance_error_km : ℚ
  bearing_deg : ℚ

/-- LoopRouteResponse from shared/src/lib.rs. -/
structure LoopRouteResponse where
  target_distance_km : ℚ
  distance_tolerance_km : ℚ
  candidates : List LoopCandidate

/-- LoopGenerationError from loops.rs. -/
inductive LoopGenerationError where
  | invalidTargetDistance
  | noLoopFound
  | gpx (msg : String)
  | elevation (msg : String)
deriving DecidableEq, Repr

/-- MIN_TARGET_DISTANCE_KM from loops.rs. -/
def minTargetDistanceKm : ℚ := 2

/-- MIN_DISTANCE_TOLERANCE_KM from loops.rs. -/
def minDistanceToleranceKm : ℚ := 1 / 2

/-- MAX_LOOP_CANDIDATES from loops.rs. -/
def maxLoopCandidates : ℕ := 12

/-- The collaborator bundle of generate_loops (see the section comment). -/
structure LoopCollaborators where
  buildLoop : ℕ → ℕ → Option (List Coordinate)
  distKm : List Coordinate → ℚ
  elevOracle : List Coordinate → Except String ElevationProfile
  gpxEncode : List Coordinate → Except String String
  bearingDeg : ℕ → ℕ → ℚ

/-- One ring-and-step attempt of generate_loops: build the loop, reject
short or out-of-tolerance loops, call the elevation oracle (a failure
aborts with an Elevation error, the Rust question-mark on line 129 of
loops.rs), apply the ascent bounds, encode the GPX and append the
candidate. -/
noncomputable def processAttempt (col : LoopCollaborators)
    (req : LoopRouteRequest) (tolerance : ℚ) (acc : List LoopCandidate)
    (ring step : ℕ) : Except LoopGenerationError (List LoopCandidate) :=
  match col.buildLoop ring step with
  | none => .ok acc
  | some loopPath =>
    if loopPath.length < 3 then .ok acc
    else
      let distance := col.distKm loopPath
      let derr := |distance - req.target_distance_km|
      if tolerance < derr then .ok acc
      else
        match col.elevOracle loopPath with
        | .error e => .error (.elevation e)
        | .ok profile =>
          let maxReject : Bool :=
            match req.max_total_ascent with
            | some maxA => decide (maxA < profile.total_ascent)
            | none => false
          if maxReject then .ok acc
          else
            let minReject : Bool :=
              match req.min_total_ascent with
              | some minA => decide (profile.total_ascent < minA)
              | none => false
            if minReject then .ok acc
            else
              match col.gpxEncode loopPath with
              | .error msg => .error (.gpx msg)
              | .ok gpx =>
                .ok (acc ++ [⟨⟨loopPath, distance, gpx,
                  some (buildMetadata loopPath), some profile⟩,
                  derr, col.bearingDeg ring step⟩])

/-- The inner step loop of generate_loops for one ring: the break out of
all rings once the candidate goal is reached is modelled by the guard at
the head of every iteration (once the goal is reached every later
iteration stops immediately, which yields the same result). -/
noncomputable def runSteps (col : LoopCollaborators) (req : LoopRouteRequest)
    (tolerance : ℚ) (goal ring : ℕ) :
    List ℕ → List LoopCandidate → Except LoopGenerationError (List LoopCandidate)
  | [], acc => .ok acc
  | step :: rest, acc =>
    if goal ≤ acc.length then .ok acc
    else
      match processAttempt col req tolerance acc ring step with
      | .error e => .error e
      | .ok acc' => runSteps col req tolerance goal ring rest acc'

/-- The outer ring loop of generate_loops. -/
noncomputable def runRings (col : LoopCollaborators) (req : LoopRouteRequest)
    (tolerance : ℚ) (goal attempts : ℕ) :
    List ℕ → List LoopCandidate → Except LoopGenerationError (List LoopCandidate)
  | [], acc => .ok acc
  | ring :: rest, acc =>
    match runSteps col req tolerance goal ring (List.range attempts) acc with
    | .error e => .error e
    | .ok acc' => runRings col req tolerance goal attempts rest acc'

/-- The ascending sort key of the final candidate ranking: total ascent
(missing profiles sort last through the f64 maximum), ties broken by
distance error. -/
def candidateLE (a b : LoopCandidate) : Prop :=
  let keyA := (a.route.elevation_profile.elim (2 ^ 1024 - 2 ^ 971 : ℚ) (·.total_ascent),
    a.distance_error_km)
  let keyB := (b.route.elevation_profile.elim (2 ^ 1024 - 2 ^ 971 : ℚ) (·.total_ascent),
    b.distance_error_km)
  keyA.1 < keyB.1 ∨ (keyA.1 = keyB.1 ∧ keyA.2 ≤ keyB.2)

instance : DecidableRel candidateLE := fun a b => by
  unfold candidateLE
  exact inferInstance

/-- generate_loops from loops.rs: target validation, tolerance and
candidate-count clamps, the two nested sampling loops over the three
rings, the empty check, and the stable sort (modelled by insertion sort)
followed by truncation. -/
noncomputable def generateLoops (col : LoopCollaborators)
    (req : LoopRouteRequest) : Except LoopGenerationError LoopRouteResponse :=
  if req.target_distance_km ≤ minTargetDistanceKm then .error .invalidTargetDistance
  else
    let tolerance := min (max req.distance_tolerance_km minDistanceToleranceKm)
      req.target_distance_km
    let goal := min (max req.candidate_count 1) maxLoopCandidates
    let attempts := max goal 4
    match runRings col req tolerance goal attempts [0, 1, 2] [] with
    | .error e => .error e
    | .ok candidates =>
      if candidates.isEmpty then .error .noLoopFound
      else
        .ok ⟨req.target_distance_km, tolerance,
          (candidates.insertionSort candidateLE).take goal⟩

/-- Filesystem and build effects observed by build_partial_cached, passed
explicitly: the LRU peek result, presence and read outcome of the two
disk cache files (none when the file does not exist), the PBF build
outcome, and the outcomes of create_dir_all and write_to_path. -/
structure PartialCacheEnv where
  lruPeek : Option GraphFile
  diskCompressed : Option (Except String GraphFile)
  diskUncompressed : Option (Except String GraphFile)
  buildResult : Except GraphBuildError GraphFile
  createDirResult : Except String Unit
  writeResult : Except String Unit

/-- GraphBuilder::build_partial_cached from graph.rs: the cache tiers in
order, then on a complete miss the build followed by create_dir_all and
write_to_path, both invoked with the question-mark operator, so either
failure aborts the whole call with an Io error (the LRU insert cannot
fail and is omitted). -/
def buildPartialCached (env : PartialCacheEnv) : Except GraphBuildError GraphFile :=
  match env.lruPeek with
  | some graph => .ok graph
  | none =>
    match env.diskCompressed with
    | some (.error msg) => .error (.io msg)
    | some (.ok graph) => .ok graph
    | none =>
      match env.diskUncompressed with
      | some (.error msg) => .error (.io msg)
      | some (.ok graph) => .ok graph
      | none =>
        match env.buildResult with
        | .error e => .error e
        | .ok graph =>
          match env.createDirResult with
          | .error msg => .error (.io msg)
          | .ok _ =>
            match env.writeResult with
            | .error msg => .error (.io msg)
            | .ok _ => .ok graph

/-- Effects observed by prepare_graph_for_bbox in bin/backend_partial.rs:
the cache-file read (none when absent), the tile build outcome (none when
no tile directory is configured or present), the PBF build outcome and
the two write effects. -/
structure PrepareGraphEnv where
  cacheFile : Option (Except String GraphFile)
  tilesResult : Option (Except GraphBuildError GraphFile)
  buildResult : Except GraphBuildError GraphFile
  createDirResult : Except String Unit
  writeResult : Except String Unit

/-- prepare_graph_for_bbox from bin/backend_partial.rs: cache hit wins, a
successful tile build is returned next, otherwise the PBF build; the
create_dir_all and write_to_path calls after a successful build discard
their results with .ok(), so their failure never affects the returned
value. Errors carry the HTTP status 500 like the Rust original. -/
def prepareGraphForBbox (env : PrepareGraphEnv) : Except (ℕ × String) GraphFile :=
  match env.cacheFile with
  | some (.error _) => .error (500, "Failed to load cache")
  | some (.ok graph) => .ok graph
  | none =>
    match env.tilesResult with
    | some (.ok graph) => .ok graph
    | _ =>
      match env.buildResult with
      | .error _ => .error (500, "Failed to build graph")
      | .ok graph => .ok graph

/-- The route response assembled by the legacy lib.rs route_handler (the
always-None elevation_profile and terrain fields are omitted). -/
structure RouteResponse where
  path : List Coordinate
  distance_km : ℝ
  gpx_base64 : String
  metadata : Option RouteMetadata

/-- route_handler from lib.rs: the engine find_path outcome and the GPX
encoder are collaborators. When the engine finds no path the handler
falls back to generate_route (unwrap_or_else) and still answers 200; the
only error path is a GPX encoding failure (500). -/
noncomputable def libRouteHandler (req : RouteRequest)
    (findPathResult : Option (List Coordinate))
    (gpxEncode : List Coordinate → Except String String) :
    Except (ℕ × String) RouteResponse :=
  let path := findPathResult.getD (generateRoute req)
  match gpxEncode path with
  | .error msg => .error (500, msg)
  | .ok gpx =>
    .ok ⟨path, approximateDistanceKm path, gpx, some (buildMetadata path)⟩

/-- The route response assembled by the backend_partial route_handler
(gpx_base64 is the empty string there, terrain is omitted). -/
structure PartialRouteResponse where
  path : List Coordinate
  distance_km : ℝ
  gpx_base64 : String
  elevation_profile : Option ElevationProfile

/-- route_handler from bin/backend_partial.rs: graph preparation, engine
construction, path search and the elevation oracle are collaborators.
A None from find_path resolves as 404; an elevation failure only drops
the profile. -/
noncomputable def partialRouteHandler
    (graphResult : Except (ℕ × String) GraphFile)
    (mkEngine : GraphFile → Except EngineError RouteEngine)
    (enginePath : RouteEngine → RouteRequest → Option (List Coordinate))
    (elevOracle : List Coordinate → Except String ElevationProfile)
    (req : RouteRequest) : Except (ℕ × String) PartialRouteResponse :=
  match graphResult with
  | .error e => .error e
  | .ok graph =>
    match mkEngine graph with
    | .error _ => .error (500, "Failed to create engine")
    | .ok engine =>
      match enginePath engine req with
      | some path =>
        let distance_km := approximateDistanceKm path
        match elevOracle path with
        | .ok profile => .ok ⟨path, distance_km, "", some profile⟩
        | .error _ => .ok ⟨path, distance_km, "", none⟩
      | none =>
        .error (404,
          "No route found - coordinates may be outside graph coverage or unreachable")

/-- Summed stored edge lengths along a node path of an engine graph (a
missing edge contributes nothing). -/
noncomputable def routeLengthKm (eng : RouteEngine) : List ℕ → ℝ
  | a :: b :: rest =>
    ((findEdgeData eng.graph a b).elim 0 (·.length_km)) + routeLengthKm eng (b :: rest)
  | _ => 0

/-- An engine (as built from a cached GraphFile) whose stored edge
lengths undercut the geometry of its node coordinates: the three nodes
sit on the equator at longitudes -90, 0 and 180 (thousands of km apart)
while the direct edge between nodes 0 and 2 claims 5 km and the two hops
through node 1 claim 1 km each. The off-by-one of
build_edge_with_waypoints produces exactly such undercut stored lengths
(see the C1 theorem), so the haversine heuristic overestimates. -/
noncomputable def undercutEngine : RouteEngine :=
  ⟨[(0, 2, ⟨5, .trail, 0, []⟩), (0, 1, ⟨1, .trail, 0, []⟩), (1, 2, ⟨1, .trail, 0, []⟩)],
   [⟨⟨0, -90⟩, 0⟩, ⟨⟨0, 0⟩, 0⟩, ⟨⟨0, 180⟩, 0⟩]⟩

/-- The uniform-weight request across undercutEngine, from the node at
longitude -90 to the node at longitude 180. -/
noncomputable def undercutReq : RouteRequest := ⟨⟨0, -90⟩, ⟨0, 180⟩, 0, 0⟩

/-- An engine holding one node at the origin and no edges. -/
noncomputable def farEngine : RouteEngine := ⟨[], [⟨⟨0, 0⟩, 0⟩]⟩

/-- A request far outside the coverage of farEngine (over 7000 km from
its only node), with zero weights. -/
noncomputable def farReq : RouteRequest := ⟨⟨50, 50⟩, ⟨50, 50⟩, 0, 0⟩

/-- A three-point polyline (the loop generator compares only lengths and
collaborator outputs, so the coordinate values are irrelevant). -/
noncomputable def flatPath3 : List Coordinate := [⟨0, 0⟩, ⟨0, 0⟩, ⟨0, 0⟩]

/-- A four-point polyline. -/
noncomputable def flatPath4 : List Coordinate := [⟨0, 0⟩, ⟨0, 0⟩, ⟨0, 0⟩, ⟨0, 0⟩]

/-- An elevation profile with zero ascent. -/
def flatProfile : ElevationProfile := ⟨[], none, none, 0, 0⟩

/-- Collaborators for a loop run that accepts a single candidate: only
the first attempt yields a loop, half a kilometre away from the target. -/
noncomputable def witnessLoopCol : LoopCollaborators :=
  { buildLoop := fun r s => if r = 0 ∧ s = 0 then some flatPath3 else none
    distKm := fun _ => 21 / 2
    elevOracle := fun _ => .ok flatProfile
    gpxEncode := fun _ => .ok "gpx"
    bearingDeg := fun _ _ => 0 }

/-- Loop request asking for one candidate of 10 km within 1 km. -/
noncomputable def witnessLoopReq : LoopRouteRequest :=
  ⟨⟨0, 0⟩, 10, 1, 1, 0, 0, none, none⟩

/-- The candidate witnessLoopCol produces. -/
noncomputable def witnessLoopCandidate : LoopCandidate :=
  ⟨⟨flatPath3, 21 / 2, "gpx", some (buildMetadata flatPath3), some flatProfile⟩,
    1 / 2, 0⟩

/-- The response of the witness loop run. -/
noncomputable def witnessLoopResp : LoopRouteResponse :=
  ⟨10, 1, [witnessLoopCandidate]⟩

/-- Collaborators for which the first attempt yields a loop whose
elevation lookup fails while the second attempt yields a loop on which
the oracle works: the oracle fails exactly on three-point polylines. -/
noncomputable def abortLoopCol : LoopCollaborators :=
  { buildLoop := fun r s =>
      if r = 0 ∧ s = 0 then some flatPath3
      else if r = 0 ∧ s = 1 then some flatPath4 else none
    distKm := fun _ => 10
    elevOracle := fun p => if p.length = 3 then .error "oracle down" else .ok flatProfile
    gpxEncode := fun _ => .ok "gpx"
    bearingDeg := fun _ _ => 0 }

/-- Loop request asking for two candidates of 10 km within 1 km. -/
noncomputable def abortLoopReq : LoopRouteRequest :=
  ⟨⟨0, 0⟩, 10, 1, 2, 0, 0, none, none⟩

/-- The same collaborators with an elevation oracle that always works. -/
noncomputable def abortLoopColOracleOk : LoopCollaborators :=
  { abortLoopCol with elevOracle := fun _ => .ok flatProfile }

/-!
Theorems. Each claim of the specification audit is settled by exactly one
theorem below; shared helper lemmas come first.
-/

/-- The haversine formula gives zero distance between identical
coordinate records. -/
theorem haversineKm_self (a : Coordinate) : haversineKm a a = 0 := by
  simp [haversineKm, toRadians]

/-- The haversine formula is symmetric in its two arguments. -/
theorem haversineKm_comm (a b : Coordinate) : haversineKm a b = haversineKm b a := by
  simp only [haversineKm, toRadians]
  have e1 : a.lat - b.lat = -(b.lat - a.lat) := by ring
  have e2 : a.lon - b.lon = -(b.lon - a.lon) := by ring
  rw [e1, e2]
  simp only [neg_mul, neg_div, Real.sin_neg, mul_neg, neg_neg, neg_mul_neg]
  ring_nf

/-- The haversine formula is non-negative. -/
theorem haversineKm_nonneg (a b : Coordinate) : 0 ≤ haversineKm a b := by
  simp only [haversineKm, toRadians, earthRadiusKm]
  have key : ∀ x : ℝ, 0 ≤ 2 * (6371 : ℝ) * Real.arcsin (Real.sqrt x) := fun x => by
    have := Real.arcsin_nonneg.mpr (Real.sqrt_nonneg x)
    nlinarith
  exact key _

/-- The haversine formula is bounded by pi times the sphere radius. -/
theorem haversineKm_le (a b : Coordinate) : haversineKm a b ≤ Real.pi * 6371 := by
  simp only [haversineKm, toRadians, earthRadiusKm]
  have key : ∀ x : ℝ, 2 * (6371 : ℝ) * Real.arcsin x ≤ Real.pi * 6371 := fun x => by
    nlinarith [Real.arcsin_le_pi_div_two x]
  exact key _

/-- Evaluation of the haversine formula between the equator points at
longitudes 0 and 180: half the sphere circumference. -/
theorem haversineKm_zero_pi : haversineKm ⟨0, 0⟩ ⟨0, 180⟩ = 6371 * Real.pi := by
  simp only [haversineKm, toRadians]
  norm_num
  rw [show (180 : ℝ) * (Real.pi / 180) / 2 = Real.pi / 2 by ring, Real.sin_pi_div_two,
    one_mul, Real.sqrt_one, Real.arcsin_one, earthRadiusKm]
  ring

/-- C8 counterexample: haversine_km is not zero only at equal coordinate
records. The two distinct records (90, 0) and (90, 90) both denote the
north pole and the formula returns exactly 0 for them, refuting the
only-if direction of the claim haversine_km(a, b) = 0 iff a = b. -/
theorem haversineKm_zero_at_distinct_records :
    haversineKm ⟨90, 0⟩ ⟨90, 90⟩ = 0 ∧ (⟨90, 0⟩ : Coordinate) ≠ ⟨90, 90⟩ := by
  constructor
  · simp only [haversineKm, toRadians]
    norm_num
    rw [show (90 : ℝ) * (Real.pi / 180) = Real.pi / 2 by ring, Real.cos_pi_div_two]
    norm_num
  · intro h
    have := congrArg Coordinate.lon h
    norm_num at this

/-- C8 amended: for all coordinates a and b, haversine_km is symmetric,
non-negative, bounded by pi times 6371, and returns 0 when the two
records are equal (the converse is dropped, as the counterexample at the
pole shows it fails). -/
theorem haversineKm_metric_properties (a b : Coordinate) :
    haversineKm a b = haversineKm b a ∧ 0 ≤ haversineKm a b ∧
      haversineKm a b ≤ Real.pi * 6371 ∧ haversineKm a a = 0 :=
  ⟨haversineKm_comm a b, haversineKm_nonneg a b, haversineKm_le a b, haversineKm_self a⟩

/-- C1: build_edge_with_waypoints indexes the coordinate table with the
1-based graph ids directly, while the table is 0-based. On offByOneData
the single emitted edge joins graph nodes 1 and 2 (both at coordinate
(0, 0)) yet its stored length_m is the haversine length of the shifted
polyline (coordinates of nodes 2 and 3), 6371 pi kilometres expressed in
metres, which exceeds the claimed polyline sum (0 m for the true
endpoints) by far more than 1 m. -/
theorem buildEdge_offByOne_wrong_length :
    buildFromFilteredData offByOneData =
      .ok ⟨[⟨1, 0, 0, none, 0⟩, ⟨2, 0, 0, none, 0⟩, ⟨3, 0, 180, none, 0⟩],
        [⟨1, 2, SurfaceType.trail, polylineLengthM ⟨0, 0⟩ ⟨0, 180⟩ [], []⟩]⟩ ∧
    polylineLengthM ⟨0, 0⟩ ⟨0, 180⟩ [] - polylineLengthM ⟨0, 0⟩ ⟨0, 0⟩ [] > 1 := by
  constructor
  · rfl
  · simp only [polylineLengthM, List.foldl_nil, haversineKm_self, haversineKm_zero_pi]
    nlinarith [Real.pi_gt_three]

/-- C2: the single-pass pipeline admits every way carrying any highway
tag. The value motorway is not in the supported set, yet the way in
motorwayData passes the filter predicate of filter_pbf_to_memory and
build_from_filtered_data emits an edge for it, refuting the claim that
unsupported highway values yield no edges. -/
theorem motorway_way_yields_edges :
    isSupportedHighway "motorway" = false ∧
    filterKeepsWay [("highway", "motorway")] = true ∧
    (buildFromFilteredData motorwayData).map (fun g => g.edges.length) = .ok 1 := by
  exact ⟨rfl, rfl, rfl⟩

/-- C7: the excluded-edges cost closure multiplies the weighted edge cost
by exactly 10 precisely when the edge is excluded in either orientation
and neither endpoint is the snapped start node; otherwise the cost is the
unmodified weighted cost of RouteEngine::edge_cost. -/
theorem excludedEdgeCost_characterised (excluded : List (ℕ × ℕ))
    (startIdx src dst : ℕ) (w : WeightConfig) (ed : EdgeData) :
    excludedEdgeCost excluded startIdx w src dst ed =
      if ((src, dst) ∈ excluded ∨ (dst, src) ∈ excluded) ∧
          src ≠ startIdx ∧ dst ≠ startIdx
      then RouteEngine.edgeCost ed w * 10
      else RouteEngine.edgeCost ed w := by
  simp only [excludedEdgeCost]
  by_cases h1 : (src, dst) ∈ excluded <;>
    by_cases h2 : (dst, src) ∈ excluded <;>
    by_cases h3 : src = startIdx <;>
    by_cases h4 : dst = startIdx <;>
    simp [h1, h2, h3, h4]

/-- Unordered pair equality is symmetric. -/
theorem pairEq_symm {p q : ℕ × ℕ} (h : pairEq p q) : pairEq q p := by
  rcases h with ⟨h1, h2⟩ | ⟨h1, h2⟩
  · exact Or.inl ⟨h1.symm, h2.symm⟩
  · exact Or.inr ⟨h2.symm, h1.symm⟩

/-- Unordered pair equality is transitive. -/
theorem pairEq_trans {p q r : ℕ × ℕ} (h1 : pairEq p q) (h2 : pairEq q r) :
    pairEq p r := by
  rcases h1 with ⟨a1, a2⟩ | ⟨a1, a2⟩ <;> rcases h2 with ⟨b1, b2⟩ | ⟨b1, b2⟩
  · exact Or.inl ⟨a1.trans b1, a2.trans b2⟩
  · exact Or.inr ⟨a1.trans b1, a2.trans b2⟩
  · exact Or.inr ⟨a1.trans b2, a2.trans b1⟩
  · exact Or.inl ⟨a1.trans b2, a2.trans b1⟩

/-- Membership in an updated edge list, assuming no duplicate unordered
pairs: a member either carries the fresh payload on the updated pair, or
was present before on a different pair. -/
theorem mem_updateEdge (a b : ℕ) (dd : EdgeData) (acc : List (ℕ × ℕ × EdgeData))
    (hnd : acc.Pairwise (fun e₁ e₂ => ¬ samePair e₁ e₂))
    (x y : ℕ) (d : EdgeData) (hmem : (x, y, d) ∈ updateEdge acc a b dd) :
    (pairEq (x, y) (a, b) ∧ d = dd) ∨ ((x, y, d) ∈ acc ∧ ¬ pairEq (x, y) (a, b)) := by
  induction acc with
  | nil =>
    simp only [updateEdge, List.mem_singleton, Prod.mk.injEq] at hmem
    exact Or.inl ⟨Or.inl ⟨hmem.1, hmem.2.1⟩, hmem.2.2⟩
  | cons e rest ih =>
    rw [updateEdge] at hmem
    rw [List.pairwise_cons] at hnd
    by_cases hcase : (e.1 = a ∧ e.2.1 = b) ∨ (e.1 = b ∧ e.2.1 = a)
    · rw [if_pos hcase] at hmem
      have hpe : pairEq (e.1, e.2.1) (a, b) := hcase
      rcases List.mem_cons.mp hmem with h | h
      · have h' : x = e.1 ∧ y = e.2.1 ∧ d = dd := by
          simpa [Prod.ext_iff] using h
        refine Or.inl ⟨?_, h'.2.2⟩
        have : pairEq (x, y) (e.1, e.2.1) := Or.inl ⟨h'.1, h'.2.1⟩
        exact pairEq_trans this hpe
      · have hne : ¬ samePair e (x, y, d) := hnd.1 _ h
        refine Or.inr ⟨List.mem_cons_of_mem _ h, fun hc => hne ?_⟩
        exact pairEq_symm (pairEq_trans hc (pairEq_symm hpe))
    · rw [if_neg hcase] at hmem
      have hnpe : ¬ pairEq (e.1, e.2.1) (a, b) := hcase
      rcases List.mem_cons.mp hmem with h | h
      · have h' : x = e.1 ∧ y = e.2.1 ∧ d = e.2.2 := by
          simpa [Prod.ext_iff] using h
        have hx : (x, y, d) = e := by
          obtain ⟨h1, h2, h3⟩ := h'
          subst h1; subst h2; subst h3
          rfl
        refine Or.inr ⟨by rw [hx]; exact List.mem_cons_self .., fun hc => hnpe ?_⟩
        have : pairEq (e.1, e.2.1) (x, y) := by
          obtain ⟨h1, h2, h3⟩ := h'
          exact Or.inl ⟨h1.symm, h2.symm⟩
        exact pairEq_trans this hc
      · rcases ih hnd.2 h with h1 | h1
        · exact Or.inl h1
        · exact Or.inr ⟨List.mem_cons_of_mem _ h1.1, h1.2⟩

/-- update_edge preserves the absence of duplicate unordered pairs. -/
theorem pairwise_updateEdge (a b : ℕ) (dd : EdgeData)
    (acc : List (ℕ × ℕ × EdgeData))
    (hnd : acc.Pairwise (fun e₁ e₂ => ¬ samePair e₁ e₂)) :
    (updateEdge acc a b dd).Pairwise (fun e₁ e₂ => ¬ samePair e₁ e₂) := by
  induction acc with
  | nil => simp [updateEdge]
  | cons e rest ih =>
    rw [updateEdge]
    rw [List.pairwise_cons] at hnd
    by_cases hcase : (e.1 = a ∧ e.2.1 = b) ∨ (e.1 = b ∧ e.2.1 = a)
    · rw [if_pos hcase]
      rw [List.pairwise_cons]
      exact ⟨fun e' he' => hnd.1 e' he', hnd.2⟩
    · rw [if_neg hcase]
      rw [List.pairwise_cons]
      constructor
      · intro e' he'
        rcases mem_updateEdge a b dd rest hnd.2 e'.1 e'.2.1 e'.2.2
            (by simpa using he') with h | h
        · intro hc
          exact hcase (pairEq_trans (pairEq_symm (pairEq_symm hc)) h.1)
        · exact hnd.1 _ (by simpa using h.1)
      · exact ih hnd.2

/-- One edge_step preserves the fold invariant, extending the handled
record list by the processed record. -/
theorem edgeStep_inv (g : GraphFile) (handled : List EdgeRecord)
    (acc : List (ℕ × ℕ × EdgeData)) (e : EdgeRecord)
    (acc' : List (ℕ × ℕ × EdgeData))
    (hinv : EngineFoldInv g handled acc)
    (hstep : edgeStep g acc e = .ok acc') :
    EngineFoldInv g (handled ++ [e]) acc' := by
  obtain ⟨hnd, hlast⟩ := hinv
  rw [edgeStep] at hstep
  cases hsrc : (idToIndex g.nodes).lookup e.src with
  | none => rw [hsrc] at hstep; exact absurd hstep (by simp)
  | some src =>
    cases hdst : (idToIndex g.nodes).lookup e.dst with
    | none => rw [hsrc, hdst] at hstep; exact absurd hstep (by simp)
    | some dst =>
      rw [hsrc, hdst] at hstep
      have hacc' : acc' = updateEdge acc src dst (deriveEdgeData g src dst e) :=
        (Except.ok.inj hstep).symm
      subst hacc'
      constructor
      · exact pairwise_updateEdge src dst (deriveEdgeData g src dst e) acc hnd
      · intro x y d hmem
        have hrev : (handled ++ [e]).reverse = e :: handled.reverse := by simp
        rcases mem_updateEdge src dst (deriveEdgeData g src dst e) acc hnd x y d hmem with
          ⟨hpe, hd⟩ | ⟨hold, hnpe⟩
        · simp only [pairEq] at hpe
          refine ⟨e, ?_, ?_⟩
          · rw [hrev, List.find?_cons_of_pos]
            rw [matchesPair, hsrc, hdst]
            rcases hpe with ⟨h1, h2⟩ | ⟨h1, h2⟩ <;> simp [h1, h2]
          · rcases hpe with ⟨h1, h2⟩ | ⟨h1, h2⟩
            · subst h1; subst h2; exact Or.inl hd
            · subst h1; subst h2; exact Or.inr hd
        · obtain ⟨rec, hfind, hder⟩ := hlast x y d hold
          refine ⟨rec, ?_, hder⟩
          rw [hrev, List.find?_cons_of_neg, hfind]
          rw [matchesPair, hsrc, hdst]
          simp only [pairEq, not_or, not_and] at hnpe
          simp only [Option.some.injEq, Bool.or_eq_true, Bool.and_eq_true, beq_iff_eq,
            not_or, not_and]
          constructor
          · intro h1 h2
            exact absurd h2.symm (hnpe.1 h1.symm)
          · intro h1 h2
            exact absurd h1.symm (hnpe.2 h2.symm)

/-- The edge fold of from_graph_file preserves the invariant across any
record list. -/
theorem edgeFold_inv (g : GraphFile) (es : List EdgeRecord)
    (handled : List EdgeRecord) (acc res : List (ℕ × ℕ × EdgeData))
    (hinv : EngineFoldInv g handled acc)
    (hfold : es.foldlM (edgeStep g) acc = .ok res) :
    EngineFoldInv g (handled ++ es) res := by
  induction es generalizing handled acc with
  | nil =>
    simp only [List.foldlM_nil] at hfold
    cases hfold
    simpa using hinv
  | cons e es ih =>
    rw [List.foldlM_cons] at hfold
    cases hstep : edgeStep g acc e with
    | error err =>
      rw [hstep] at hfold
      exact absurd hfold (by simp [Bind.bind, Except.bind])
    | ok acc' =>
      rw [hstep] at hfold
      have hfold' : es.foldlM (edgeStep g) acc' = .ok res := by
        simpa [Bind.bind, Except.bind] using hfold
      have := ih (handled ++ [e]) acc'
        (edgeStep_inv g handled acc e acc' hinv hstep) hfold'
      simpa [List.append_assoc] using this

/-- The derived payload is symmetric in the two resolved indices. -/
theorem deriveEdgeData_comm (g : GraphFile) (x y : ℕ) (e : EdgeRecord) :
    deriveEdgeData g y x e = deriveEdgeData g x y e := by
  simp only [deriveEdgeData]
  have : ((engineNodes g).getD y defaultNodeData).population_density +
      ((engineNodes g).getD x defaultNodeData).population_density =
      ((engineNodes g).getD x defaultNodeData).population_density +
      ((engineNodes g).getD y defaultNodeData).population_density := add_comm _ _
  rw [this]

/-- C10: from_graph_file keeps at most one edge per unordered node-index
pair; the payload stored for a pair is the one derived from the last
edge record of the input that resolves to that pair, so earlier parallel
records are overwritten. -/
theorem fromGraphFile_last_record_wins (g : GraphFile) (eng : RouteEngine)
    (hok : fromGraphFile g = .ok eng) :
    eng.graph.Pairwise (fun e₁ e₂ => ¬ samePair e₁ e₂) ∧
    ∀ x y d, (x, y, d) ∈ eng.graph →
      ∃ rec, (g.edges.reverse).find? (matchesPair g x y) = some rec ∧
        d = deriveEdgeData g x y rec := by
  rw [fromGraphFile] at hok
  by_cases hemp : g.nodes.isEmpty
  · rw [if_pos hemp] at hok
    cases hok
  · rw [if_neg hemp] at hok
    cases hfold : g.edges.foldlM (edgeStep g) [] with
    | error err =>
      rw [hfold] at hok
      exact absurd hok (by simp [Except.map])
    | ok es =>
      rw [hfold] at hok
      have hok' : Except.ok (ε := EngineError) (RouteEngine.mk es (engineNodes g)) =
          Except.ok eng := by
        simpa [Except.map] using hok
      have heng : eng = RouteEngine.mk es (engineNodes g) := (Except.ok.inj hok').symm
      subst heng
      have hbase : EngineFoldInv g [] [] := by
        constructor
        · simp
        · intro x y d h
          simp at h
      have hinv := edgeFold_inv g g.edges [] [] es hbase hfold
      refine ⟨hinv.1, fun x y d hmem => ?_⟩
      obtain ⟨rec, hfind, hder⟩ := hinv.2 x y d hmem
      refine ⟨rec, by simpa using hfind, ?_⟩
      rcases hder with h | h
      · exact h
      · rw [h, deriveEdgeData_comm]

/-- A candidate admitted by one attempt either was already accumulated or
lies within the distance tolerance. -/
theorem processAttempt_mem (col : LoopCollaborators) (req : LoopRouteRequest)
    (tol : ℚ) (acc : List LoopCandidate) (ring step : ℕ)
    (acc' : List LoopCandidate)
    (h : processAttempt col req tol acc ring step = .ok acc')
    (c : LoopCandidate) (hc : c ∈ acc') :
    c ∈ acc ∨ |c.route.distance_km - req.target_distance_km| ≤ tol := by
  simp only [processAttempt] at h
  split at h
  · cases h; exact Or.inl hc
  · split at h
    · cases h; exact Or.inl hc
    · split at h
      · cases h; exact Or.inl hc
      next hderr =>
        split at h
        · cases h
        · split at h
          · cases h; exact Or.inl hc
          · split at h
            · cases h; exact Or.inl hc
            · split at h
              · cases h
              · cases h
                rcases List.mem_append.mp hc with h1 | h1
                · exact Or.inl h1
                · rw [List.mem_singleton.mp h1]
                  exact Or.inr (not_lt.mp hderr)

/-- The step loop preserves the tolerance property of the accumulator. -/
theorem runSteps_mem (col : LoopCollaborators) (req : LoopRouteRequest)
    (tol : ℚ) (goal ring : ℕ) (steps : List ℕ) (acc acc' : List LoopCandidate)
    (h : runSteps col req tol goal ring steps acc = .ok acc')
    (c : LoopCandidate) (hc : c ∈ acc') :
    c ∈ acc ∨ |c.route.distance_km - req.target_distance_km| ≤ tol := by
  induction steps generalizing acc with
  | nil => cases h; exact Or.inl hc
  | cons s rest ih =>
    rw [runSteps] at h
    split at h
    · cases h; exact Or.inl hc
    · split at h
      · cases h
      next acc1 hpa =>
        rcases ih acc1 h with h1 | h1
        · exact processAttempt_mem col req tol acc ring s acc1 hpa c h1
        · exact Or.inr h1

/-- The ring loop preserves the tolerance property of the accumulator. -/
theorem runRings_mem (col : LoopCollaborators) (req : LoopRouteRequest)
    (tol : ℚ) (goal attempts : ℕ) (rings : List ℕ) (acc acc' : List LoopCandidate)
    (h : runRings col req tol goal attempts rings acc = .ok acc')
    (c : LoopCandidate) (hc : c ∈ acc') :
    c ∈ acc ∨ |c.route.distance_km - req.target_distance_km| ≤ tol := by
  induction rings generalizing acc with
  | nil => cases h; exact Or.inl hc
  | cons r rest ih =>
    rw [runRings] at h
    split at h
    · cases h
    next acc1 hsteps =>
      rcases ih acc1 h with h1 | h1
      · exact runSteps_mem col req tol goal r (List.range attempts) acc acc1 hsteps c h1
      · exact Or.inr h1

/-- C9: every candidate of a successful loop-generation response lies
within the clamped tolerance of the requested target distance, the
tolerance being the requested one raised to at least 0.5 km and capped at
the target distance. -/
theorem loop_candidates_within_tolerance (col : LoopCollaborators)
    (req : LoopRouteRequest) (resp : LoopRouteResponse)
    (hok : generateLoops col req = .ok resp) (c : LoopCandidate)
    (hc : c ∈ resp.candidates) :
    |c.route.distance_km - req.target_distance_km| ≤
      min (max req.distance_tolerance_km (1 / 2)) req.target_distance_km := by
  simp only [generateLoops] at hok
  split at hok
  · cases hok
  · split at hok
    · cases hok
    next candidates hrun =>
      split at hok
      · cases hok
      · cases hok
        have h1 : c ∈ candidates.insertionSort candidateLE :=
          List.mem_of_mem_take hc
        have h2 : c ∈ candidates :=
          (List.perm_insertionSort candidateLE candidates).mem_iff.mp h1
        rcases runRings_mem col req _ _ _ [0, 1, 2] [] candidates hrun c h2 with h3 | h3
        · simp at h3
        · simpa [minDistanceToleranceKm] using h3

/-- C9 witness: a concrete loop run that accepts one candidate half a
kilometre off the 10 km target, within the clamped 1 km tolerance. -/
theorem loop_candidates_within_tolerance_witness :
    generateLoops witnessLoopCol witnessLoopReq = .ok witnessLoopResp ∧
    |witnessLoopCandidate.route.distance_km - witnessLoopReq.target_distance_km| ≤
      min (max witnessLoopReq.distance_tolerance_km (1 / 2))
        witnessLoopReq.target_distance_km := by
  have habs : |(1 : ℚ) / 2| = 1 / 2 := abs_of_nonneg (by norm_num)
  have hok : generateLoops witnessLoopCol witnessLoopReq = .ok witnessLoopResp := by
    norm_num [generateLoops, runRings, runSteps, processAttempt, witnessLoopCol,
      witnessLoopReq, witnessLoopResp, witnessLoopCandidate, minTargetDistanceKm,
      minDistanceToleranceKm, maxLoopCandidates, flatPath3, List.insertionSort,
      List.orderedInsert, List.range_succ, habs]
  exact ⟨hok, loop_candidates_within_tolerance witnessLoopCol witnessLoopReq
    witnessLoopResp hok witnessLoopCandidate (by simp [witnessLoopResp])⟩

/-- C5 counterexample: an elevation failure on the first viable candidate
makes the whole loop request fail with an Elevation error, even though a
second viable candidate exists; with a working oracle the same run
produces two candidates. This refutes the claim that only the failing
candidate is rejected and generation continues. -/
theorem elevation_failure_rejects_whole_request :
    generateLoops abortLoopCol abortLoopReq = .error (.elevation "oracle down") ∧
    (generateLoops abortLoopColOracleOk abortLoopReq).map
      (fun r => r.candidates.length) = .ok 2 := by
  constructor
  · norm_num [generateLoops, runRings, runSteps, processAttempt, abortLoopCol,
      abortLoopReq, minTargetDistanceKm, minDistanceToleranceKm, maxLoopCandidates,
      flatPath3, List.range_succ]
  · norm_num [generateLoops, runRings, runSteps, processAttempt, abortLoopCol,
      abortLoopColOracleOk, abortLoopReq, minTargetDistanceKm,
      minDistanceToleranceKm, maxLoopCandidates, flatPath3, flatPath4,
      List.insertionSort, List.orderedInsert, candidateLE, List.range_succ,
      Except.map]

/-- C5 amended: when the elevation oracle fails on the first loop
candidate that passes the length and distance filters, generate_loops
aborts the whole request with an Elevation error carrying the oracle
message; the remaining waypoint candidates are not evaluated. -/
theorem elevation_failure_is_fatal (col : LoopCollaborators)
    (req : LoopRouteRequest) (p : List Coordinate) (e : String)
    (htarget : minTargetDistanceKm < req.target_distance_km)
    (hbuild : col.buildLoop 0 0 = some p)
    (hlen : ¬ p.length < 3)
    (hdist : ¬ min (max req.distance_tolerance_km minDistanceToleranceKm)
      req.target_distance_km < |col.distKm p - req.target_distance_km|)
    (helev : col.elevOracle p = .error e) :
    generateLoops col req = .error (.elevation e) := by
  have hpa : processAttempt col req
      (min (max req.distance_tolerance_km minDistanceToleranceKm)
        req.target_distance_km) [] 0 0 = .error (.elevation e) := by
    simp only [processAttempt, hbuild, hlen, hdist, helev]
    simp
  have hrs : runSteps col req
      (min (max req.distance_tolerance_km minDistanceToleranceKm)
        req.target_distance_km)
      (min (max req.candidate_count 1) maxLoopCandidates) 0
      (List.range (max (min (max req.candidate_count 1) maxLoopCandidates) 4)) []
      = .error (.elevation e) := by
    obtain ⟨k, hk⟩ :
        ∃ k, max (min (max req.candidate_count 1) maxLoopCandidates) 4 = k + 1 :=
      ⟨max (min (max req.candidate_count 1) maxLoopCandidates) 4 - 1, by omega⟩
    rw [hk, List.range_succ_eq_map, runSteps]
    rw [if_neg (by simp [maxLoopCandidates])]
    rw [hpa]
  have hrr : runRings col req
      (min (max req.distance_tolerance_km minDistanceToleranceKm)
        req.target_distance_km)
      (min (max req.candidate_count 1) maxLoopCandidates)
      (max (min (max req.candidate_count 1) maxLoopCandidates) 4) [0, 1, 2] []
      = .error (.elevation e) := by
    rw [runRings, hrs]
  simp only [generateLoops]
  rw [if_neg (not_le.mpr htarget), hrr]

/-- C5 amended witness: the hypotheses of elevation_failure_is_fatal hold
for the concrete aborting run. -/
theorem elevation_failure_is_fatal_witness :
    generateLoops abortLoopCol abortLoopReq = .error (.elevation "oracle down") :=
  elevation_failure_is_fatal abortLoopCol abortLoopReq flatPath3 "oracle down"
    (by norm_num [minTargetDistanceKm, abortLoopReq])
    (by norm_num [abortLoopCol])
    (by norm_num [flatPath3])
    (by norm_num [abortLoopCol, abortLoopReq, minDistanceToleranceKm, flatPath3])
    (by norm_num [abortLoopCol, flatPath3])

/-- C6 counterexample: with every cache tier missing and a successful
build, a failing create_dir_all (first conjunct) or a failing
write_to_path (second conjunct) makes build_partial_cached return an Io
error instead of the assembled GraphFile, refuting the claim that the
failure is only logged. -/
theorem cache_write_failure_fails_build_partial_cached :
    buildPartialCached
        ⟨none, none, none, .ok parallelEdgesFile, .error "disk full", .ok ()⟩ =
      .error (.io "disk full") ∧
    buildPartialCached
        ⟨none, none, none, .ok parallelEdgesFile, .ok (), .error "disk full"⟩ =
      .error (.io "disk full") :=
  ⟨rfl, rfl⟩

/-- C6 amended: build_partial_cached propagates cache-directory-creation
and cache-write failures as Io errors, failing the request; the
best-effort behaviour holds in prepare_graph_for_bbox of the partial
backend, which discards both outcomes and returns the assembled
GraphFile whether the build came from tiles or from the PBF. -/
theorem cache_write_best_effort_only_in_partial_backend (g : GraphFile)
    (msg : String) (b : Except GraphBuildError GraphFile)
    (cd wr : Except String Unit) :
    buildPartialCached ⟨none, none, none, .ok g, .error msg, .ok ()⟩ =
      .error (.io msg) ∧
    buildPartialCached ⟨none, none, none, .ok g, .ok (), .error msg⟩ =
      .error (.io msg) ∧
    prepareGraphForBbox ⟨none, none, .ok g, cd, wr⟩ = .ok g ∧
    prepareGraphForBbox ⟨none, some (.ok g), b, cd, wr⟩ = .ok g :=
  ⟨rfl, rfl, rfl, rfl⟩

/-- Squared degree distance from the origin node to the far request. -/
theorem farEngine_sq :
    squaredEuclideanDeg ⟨⟨0, 0⟩, 0⟩ ⟨50, 50⟩ = 5000 := by
  norm_num [squaredEuclideanDeg]

/-- The far request snaps to no node: the only node is beyond the 20 km
cutoff of closest_node. -/
theorem farEngine_snap_fails : closestNode farEngine ⟨50, 50⟩ = none := by
  have hnear : nearestNode farEngine.nodes ⟨50, 50⟩ = some (5000, 0) := by
    simp [nearestNode, nearestGo, farEngine, farEngine_sq]
  rw [closestNode, hnear]
  have hcut : ¬ (Real.sqrt 5000 * 111 ≤ 20) := by
    intro hle
    have h70 : (70 : ℝ) ≤ Real.sqrt 5000 := by
      rw [show (70 : ℝ) = Real.sqrt 4900 by
        rw [show (4900 : ℝ) = 70 ^ 2 by norm_num, Real.sqrt_sq (by norm_num)]]
      exact Real.sqrt_le_sqrt (by norm_num)
    nlinarith
  simp [hcut]

/-- C4 counterexample: a request whose endpoints fail to snap yields None
from the engine, and the lib.rs route_handler then answers 200 with the
33-point synthetic generate_route path instead of resolving the request
as NoRoute 404. -/
theorem lib_handler_fabricates_route_when_no_path :
    findPath farEngine farReq 100 = none ∧
    (libRouteHandler farReq none (fun _ => .ok "gpx")).map
      (fun r => r.path.length) = .ok 33 := by
  constructor
  · simp [findPath, findPathWithExcludedEdges, astarNodeRoute, farReq,
      farEngine_snap_fails]
  · have hlen : (generateRoute farReq).length = 33 := by
      simp only [generateRoute]
      rw [List.length_map, List.length_range]
    simp [libRouteHandler, Except.map, hlen]

/-- C4 amended: the engine answers None when snapping fails or the search
finds no path, and the backend_partial route_handler resolves an engine
None as 404 NoRoute; the legacy lib.rs handler instead falls back to a
synthetic route (see the counterexample). -/
theorem partial_handler_resolves_none_as_404 (g : GraphFile)
    (eng : RouteEngine)
    (elevOracle : List Coordinate → Except String ElevationProfile)
    (req : RouteRequest) :
    partialRouteHandler (.ok g) (fun _ => .ok eng) (fun _ _ => none)
      elevOracle req =
      .error (404,
        "No route found - coordinates may be outside graph coverage or unreachable") :=
  rfl

/-- The start coordinate of the undercut request snaps to node 0. -/
theorem undercut_snap_start : closestNode undercutEngine ⟨0, -90⟩ = some 0 := by
  have h0 : squaredEuclideanDeg ⟨⟨0, -90⟩, 0⟩ ⟨0, -90⟩ = 0 := by
    norm_num [squaredEuclideanDeg]
  have h1 : squaredEuclideanDeg ⟨⟨0, 0⟩, 0⟩ ⟨0, -90⟩ = 8100 := by
    norm_num [squaredEuclideanDeg]
  have h2 : squaredEuclideanDeg ⟨⟨0, 180⟩, 0⟩ ⟨0, -90⟩ = 72900 := by
    norm_num [squaredEuclideanDeg]
  have hnear : nearestNode undercutEngine.nodes ⟨0, -90⟩ = some (0, 0) := by
    norm_num [nearestNode, nearestGo, undercutEngine, h0, h1, h2]
  rw [closestNode, hnear]
  norm_num [Real.sqrt_zero]

/-- The end coordinate of the undercut request snaps to node 2. -/
theorem undercut_snap_stop : closestNode undercutEngine ⟨0, 180⟩ = some 2 := by
  have h0 : squaredEuclideanDeg ⟨⟨0, -90⟩, 0⟩ ⟨0, 180⟩ = 72900 := by
    norm_num [squaredEuclideanDeg]
  have h1 : squaredEuclideanDeg ⟨⟨0, 0⟩, 0⟩ ⟨0, 180⟩ = 32400 := by
    norm_num [squaredEuclideanDeg]
  have h2 : squaredEuclideanDeg ⟨⟨0, 180⟩, 0⟩ ⟨0, 180⟩ = 0 := by
    norm_num [squaredEuclideanDeg]
  have hnear : nearestNode undercutEngine.nodes ⟨0, 180⟩ = some (0, 2) := by
    norm_num [nearestNode, nearestGo, undercutEngine, h0, h1, h2]
  rw [closestNode, hnear]
  norm_num [Real.sqrt_zero]

/-- With zero weights and no exclusions the cost closure returns the
stored edge length. -/
theorem undercut_cost (len : ℝ) (src dst : ℕ) :
    excludedEdgeCost [] 0 ⟨0, 0⟩ src dst ⟨len, .trail, 0, []⟩ = len := by
  simp [excludedEdgeCost, RouteEngine.edgeCost, pavedPenalty]

/-- The haversine heuristic at node 1 of the undercut engine: half the
sphere circumference, far more than the 5 km stored on the direct edge. -/
theorem undercut_h1 :
    engineHeuristic undercutEngine 2 ⟨0, 180⟩ 1 = 6371 * Real.pi := by
  rw [engineHeuristic, if_neg (by norm_num)]
  norm_num [undercutEngine, defaultNodeData]
  exact haversineKm_zero_pi

/-- The heuristic vanishes at the goal node. -/
theorem undercut_h2 : engineHeuristic undercutEngine 2 ⟨0, 180⟩ 2 = 0 := by
  rw [engineHeuristic, if_pos rfl]

/-- C3: with uniform weights on the undercut engine, the A-star search of
find_path_with_excluded_edges returns the direct node path with summed
edge lengths 5 km even though the path through node 1 sums to 2 km, so
the returned path is not a minimum under the length cost: the haversine
heuristic (6371 pi km at node 1) overestimates the 1 km stored edge cost
and the search pops the goal through the long edge first. -/
theorem astar_suboptimal_on_undercut_lengths :
    astarNodeRoute undercutEngine undercutReq [] 2 = some (5, [0, 2]) ∧
    routeLengthKm undercutEngine [0, 2] = 5 ∧
    routeLengthKm undercutEngine [0, 1, 2] = 2 ∧
    (2 : ℝ) < 5 := by
  have hngt : ¬ (1 + 6371 * Real.pi < 5) := by nlinarith [Real.pi_gt_three]
  refine ⟨?_, ?_, ?_, by norm_num⟩
  · have hg : undercutEngine.graph =
        [(0, 2, ⟨5, .trail, 0, []⟩), (0, 1, ⟨1, .trail, 0, []⟩),
          (1, 2, ⟨1, .trail, 0, []⟩)] := rfl
    norm_num [astarNodeRoute, undercutReq, undercut_snap_start, undercut_snap_stop,
      Option.bind, astar, astarLoop, popMin, popMinGo, relaxNeighbor, incidentEdges,
      reconstructPathTo, reconstructGo, List.lookup, hg, undercut_cost,
      undercut_h1, undercut_h2, hngt, List.filterMap_cons, List.filterMap_nil,
      List.foldl_cons, List.foldl_nil,
      show ((0 : ℕ) == 0) = true from rfl, show ((0 : ℕ) == 1) = false from rfl,
      show ((0 : ℕ) == 2) = false from rfl, show ((1 : ℕ) == 0) = false from rfl,
      show ((1 : ℕ) == 1) = true from rfl, show ((1 : ℕ) == 2) = false from rfl,
      show ((2 : ℕ) == 0) = false from rfl, show ((2 : ℕ) == 1) = false from rfl,
      show ((2 : ℕ) == 2) = true from rfl]
  · norm_num [routeLengthKm, findEdgeData, undercutEngine]
  · norm_num [routeLengthKm, findEdgeData, undercutEngine]

/-- C10 witness: on parallelEdgesFile the construction succeeds and keeps
a single edge whose payload is derived from the last record between node
ids 1 and 2. -/
theorem fromGraphFile_last_record_wins_witness :
    fromGraphFile parallelEdgesFile = .ok parallelEdgesEngine ∧
    ∃ rec, (parallelEdgesFile.edges.reverse).find?
        (matchesPair parallelEdgesFile 0 1) = some rec ∧
      parallelEdgesKeptData = deriveEdgeData parallelEdgesFile 0 1 rec := by
  have hok : fromGraphFile parallelEdgesFile = .ok parallelEdgesEngine := rfl
  exact ⟨hok, (fromGraphFile_last_record_wins parallelEdgesFile parallelEdgesEngine hok).2
    0 1 parallelEdgesKeptData (by simp [parallelEdgesEngine])⟩

end CheminsNoirs
